import Mathlib

/-!
Shallow embedding of the `redirects` Go package (src/redirects.go): a manual
HTTP redirect tracer.  Pure string manipulation (prefix checks, header
canonicalization, the error behavior of Go `net/url.Parse` including its
host, port, bracket, escape and userinfo checks) is translated directly,
walking characters where Go walks bytes, which preserves the error domain
since Go only rejects bytes below 0x80; the network (`client.Do`) is an
oracle `Net` mapping the request index and requested URL to either a transport
error or a `Response`.  A `nil`-pointer dereference in the Go code (reading
`resp.TLS.Version` when `resp.TLS` is `nil`) is modelled by the loop returning
`none` (a panic escaping `Get`).
-/

namespace Redirects

/-- Model of Go `strings.HasPrefix` (byte-wise prefix test; our strings are
ASCII so char-wise is equivalent). -/
def strStartsWith (s pre : String) : Bool :=
  List.isPrefixOf pre.toList s.toList

/-- Substring containment on char lists: `hasSub n h` is true when the needle
`n` occurs contiguously inside the haystack `h` (Go `strings.Contains h n`). -/
def hasSub (n : List Char) : List Char → Bool
  | [] => List.isPrefixOf n []
  | c :: t => List.isPrefixOf n (c :: t) || hasSub n t

/-- Model of Go `strings.ToUpper` (inputs here are ASCII, where Go and
`Char.toUpper` agree). -/
def strToUpper (s : String) : String :=
  String.mk (s.toList.map Char.toUpper)

/-- Verbatim from src/redirects.go: `strings.Contains(strings.ToUpper(a), strings.ToUpper(b))`
(the misspelling is the source function name). -/
def caseInsenstiveContains (a b : String) : Bool :=
  hasSub (strToUpper b).toList (strToUpper a).toList

/-- Lowercase hexadecimal digit (Go `lowerhex`). -/
def hexDigitLower (n : Nat) : Char :=
  if n < 10 then Char.ofNat (48 + n) else Char.ofNat (87 + n)

/-- Go `strconv.Quote` escaping of one character inside a double-quoted
string: the double quote and the backslash are backslash-escaped, the seven
control characters with symbolic escapes get them, the remaining ASCII
control characters and DEL become a backslash-x byte escape, and every other
character is emitted literally (Go emits printable characters literally;
non-printable non-ASCII runes, which Go renders as backslash-u escapes, do
not occur in this development). -/
def quoteChar (c : Char) : List Char :=
  if c = '"' then ['\\', '"']
  else if c = '\\' then ['\\', '\\']
  else if c.toNat = 7 then ['\\', 'a']
  else if c.toNat = 8 then ['\\', 'b']
  else if c.toNat = 12 then ['\\', 'f']
  else if c.toNat = 10 then ['\\', 'n']
  else if c.toNat = 13 then ['\\', 'r']
  else if c.toNat = 9 then ['\\', 't']
  else if c.toNat = 11 then ['\\', 'v']
  else if c.toNat < 32 ∨ c.toNat = 127 then
    ['\\', 'x', hexDigitLower (c.toNat / 16), hexDigitLower (c.toNat % 16)]
  else [c]

/-- Escape every character of a list, in order. -/
def quoteChars : List Char → List Char
  | [] => []
  | c :: t => quoteChar c ++ quoteChars t

/-- Go `fmt %q` on a string (`strconv.Quote`): the escaped content wrapped in
double quotes. -/
def goQuote (s : String) : String :=
  String.mk ('"' :: (quoteChars s.toList ++ ['"']))

/-- Characters Go `net/url` accepts unescaped in a host component
(`shouldEscape(c, encodingHost) == false`): alphanumerics, the unreserved
marks `- . _ ~` and the sub-delims `! $ & ' ( ) * + , ; = : [ ] < > "`. -/
def isHostChar (c : Char) : Bool :=
  c.isAlphanum ||
    [45, 46, 95, 126, 33, 36, 38, 39, 40, 41, 42, 43, 44, 59, 61, 58,
      91, 93, 60, 62, 34].contains c.toNat

/-- Go `net/url` CTL-byte check: any rune below space, or DEL. -/
def containsCTLByte (s : String) : Bool :=
  s.toList.any (fun c => c.toNat < 32 || c.toNat == 127)

/-- The part of a char list before the first occurrence of `sep` (Go
`split(s, sep, true)`, keeping only the left half). -/
def cutBefore (sep : Char) : List Char → List Char
  | [] => []
  | c :: t => if c == sep then [] else c :: cutBefore sep t

/-- The part of a char list strictly after the last occurrence of `sep`; the
whole list when `sep` does not occur (Go split at `strings.LastIndex`). -/
def afterLast (sep : Char) (l : List Char) : List Char :=
  ((cutBefore sep l.reverse)).reverse

/-- True when `sep` occurs in the list. -/
def containsChar (sep : Char) (l : List Char) : Bool :=
  l.any (fun c => c == sep)

/-- Model of Go `net/url.getScheme`: scan for a `:` delimiting a scheme
(letters first, then letters | digits | `+ - .`).  Returns
`(scheme, rest)` with the scheme lowercased by the caller in Go; an input
starting with `:` is the error `missing protocol scheme`; a non-scheme
character before any `:` means there is no scheme. -/
def getSchemeAux (first : Bool) (seen : List Char) : List Char → Except String (List Char × List Char)
  | [] => .ok ([], seen.reverse ++ [])
  | c :: t =>
    if c.isAlpha then getSchemeAux false (c :: seen) t
    else if c.isDigit || c == '+' || c == '-' || c == '.' then
      if first then .ok ([], seen.reverse ++ (c :: t))
      else getSchemeAux false (c :: seen) t
    else if c == ':' then
      if first then .error "missing protocol scheme"
      else .ok (seen.reverse, t)
    else .ok ([], seen.reverse ++ (c :: t))

/-- Entry point of the `getScheme` model on a full raw URL. -/
def getScheme (s : List Char) : Except String (List Char × List Char) :=
  match getSchemeAux true [] s with
  | .error e => .error e
  | .ok (sc, rest) => if sc.isEmpty then .ok ([], s) else .ok (sc, rest)

/-- Go `validOptionalPort`: empty, or `:` followed by digits only. -/
def validOptionalPort (p : List Char) : Bool :=
  match p with
  | [] => true
  | c :: t => c == ':' && t.all Char.isDigit

/-- Go `ishex`: an ASCII hexadecimal digit. -/
def ishex (c : Char) : Bool :=
  c.isDigit || (97 ≤ c.toNat && c.toNat ≤ 102) || (65 ≤ c.toNat && c.toNat ≤ 70)

/-- Go `unhex`: the value of a hexadecimal digit. -/
def unhex (c : Char) : Nat :=
  if c.isDigit then c.toNat - 48
  else if 97 ≤ c.toNat ∧ c.toNat ≤ 102 then c.toNat - 87
  else if 65 ≤ c.toNat ∧ c.toNat ≤ 70 then c.toNat - 55
  else 0

/-- Go `EscapeError`: `invalid URL escape` followed by the quoted offending
context (at most three characters starting at the `%`). -/
def escapeErrText (l : List Char) : String :=
  "invalid URL escape " ++ goQuote (String.mk l)

/-- The escaping modes of Go `net/url.unescape` as far as their error
behavior differs: `host` (`encodeHost`) rejects disallowed ASCII characters
and well-formed escapes of ASCII bytes other than `%25`; `zone`
(`encodeZone`) rejects only disallowed ASCII characters; `plain` stands for
`encodeUserPassword`, `encodePath` and `encodeFragment`, which only demand
that every `%` be followed by two hexadecimal digits. -/
inductive EscMode where
  | host
  | zone
  | plain
deriving DecidableEq

/-- Model of the error behavior of Go `net/url.unescape`: a `%` not followed
by two hexadecimal digits fails in every mode; in host mode a well-formed
escape whose first digit is below 8 (an ASCII byte) fails unless it is
exactly `%25`; in host and zone modes an ASCII character outside the allowed
host set fails with `invalid character ... in host name`.  Characters at or
above 0x80 are never rejected, as Go inspects only bytes below 0x80 (the
model walks characters rather than bytes, which yields the same error set;
only the quoted context of an `EscapeError` can differ, when a malformed
escape is followed by a rune of three or more bytes). -/
def unescapeErr (mode : EscMode) : List Char → Option String
  | [] => none
  | '%' :: rest =>
    match rest with
    | x :: y :: t =>
      if ishex x ∧ ishex y then
        if mode = EscMode.host ∧ unhex x < 8 ∧ ¬(x = '2' ∧ y = '5') then
          some (escapeErrText ['%', x, y])
        else unescapeErr mode t
      else some (escapeErrText (('%' :: rest).take 3))
    | _ => some (escapeErrText (('%' :: rest).take 3))
  | c :: t =>
    if (mode = EscMode.host ∨ mode = EscMode.zone) ∧ c.toNat < 128 ∧ isHostChar c = false then
      some ("invalid character " ++ goQuote (String.mk [c]) ++ " in host name")
    else unescapeErr mode t

/-- The part of `l` strictly before the last occurrence of `sep` (meaningful
when `sep` occurs in `l`). -/
def beforeLast (sep : Char) (l : List Char) : List Char :=
  l.take (l.length - (afterLast sep l).length - 1)

/-- The part of `l` strictly after the first occurrence of `sep`; empty when
`sep` does not occur. -/
def afterFirst (sep : Char) (l : List Char) : List Char :=
  l.drop ((cutBefore sep l).length + 1)

/-- Index of the first occurrence of the contiguous pattern `n` (Go
`strings.Index`). -/
def indexOfSub (n : List Char) : List Char → Option Nat
  | [] => if List.isPrefixOf n ([] : List Char) then some 0 else none
  | c :: t => if List.isPrefixOf n (c :: t) then some 0 else (indexOfSub n t).map (fun k => k + 1)

/-- Model of Go `net/url.parseHost`.  A bracketed host must contain a closing
bracket (else `missing ']' in host`) followed by a valid optional port; when
it carries a `%25` zone marker its three pieces are unescape-checked
separately (host, zone, host) and the function returns, otherwise control
falls through to the common host-mode unescape of the whole host.  A
non-bracketed host containing `:` must have a valid port after the last `:`,
then the whole host is unescape-checked in host mode. -/
def parseHostErr (host : List Char) : Option String :=
  if List.isPrefixOf ['['] host then
    if containsChar ']' host = false then some "missing ']' in host"
    else
      let colonPort := afterLast ']' host
      if validOptionalPort colonPort = false then
        some ("invalid port " ++ goQuote (String.mk colonPort) ++ " after host")
      else
        let inner := beforeLast ']' host
        match indexOfSub ['%', '2', '5'] inner with
        | some z =>
          (match unescapeErr EscMode.host (inner.take z) with
           | some e => some e
           | none =>
             match unescapeErr EscMode.zone (inner.drop z) with
             | some e => some e
             | none => unescapeErr EscMode.host (']' :: colonPort))
        | none => unescapeErr EscMode.host host
  else
    if containsChar ':' host = true ∧ validOptionalPort (':' :: afterLast ':' host) = false then
      some ("invalid port " ++ goQuote (String.mk (':' :: afterLast ':' host)) ++ " after host")
    else unescapeErr EscMode.host host

/-- Go `validUserinfo`: ASCII alphanumerics and the userinfo specials
`- . _ : ~ ! $ & ' ( ) * + , ; = % @`; every other rune (non-ASCII included)
is invalid. -/
def isUserinfoChar (c : Char) : Bool :=
  c.isAlphanum ||
    [45, 46, 95, 58, 126, 33, 36, 38, 39, 40, 41, 42, 43, 44, 59, 61, 37,
      64].contains c.toNat

/-- Model of Go `net/url.parseAuthority`: the host (the part after the last
`@`, or the whole authority) is checked first; then the userinfo (before the
last `@`) must pass `validUserinfo`, and its username and password halves
(cut at the first `:`) must have well-formed escapes. -/
def parseAuthorityErr (authority : List Char) : Option String :=
  if containsChar '@' authority = true then
    match parseHostErr (afterLast '@' authority) with
    | some e => some e
    | none =>
      let userinfo := beforeLast '@' authority
      if userinfo.all isUserinfoChar = false then some "net/url: invalid userinfo"
      else if containsChar ':' userinfo = true then
        match unescapeErr EscMode.plain (cutBefore ':' userinfo) with
        | some e => some e
        | none => unescapeErr EscMode.plain (afterFirst ':' userinfo)
      else unescapeErr EscMode.plain userinfo
  else parseHostErr authority

/-- Model of the error conditions of Go `net/url.parse(rawURL, false)` (the
fragment has already been cut off by `Parse`): CTL bytes, `missing protocol
scheme`, a colon in the first path segment of a scheme-less relative URL,
authority errors (host characters, ports, brackets, escapes, userinfo), and
malformed escapes in the path.  A rootless rest with a non-empty scheme is
opaque and undergoes no further checks, exactly as in Go; the query part is
stored unvalidated by Go and therefore never errors. -/
def parseInnerErr (s : String) : Option String :=
  if containsCTLByte s then some "net/url: invalid control character in URL"
  else if s == "*" then none
  else
    match getScheme s.toList with
    | .error e => some e
    | .ok (scheme, rest0) =>
      let rest := cutBefore '?' rest0
      if List.isPrefixOf ['/'] rest then
        if List.isPrefixOf ['/', '/'] rest &&
            (!(scheme.isEmpty) || !(List.isPrefixOf ['/', '/', '/'] rest)) then
          let afterSlashes := rest.drop 2
          let authority := cutBefore '/' afterSlashes
          match parseAuthorityErr authority with
          | some e => some e
          | none => unescapeErr EscMode.plain (afterSlashes.drop authority.length)
        else unescapeErr EscMode.plain rest
      else
        if !(scheme.isEmpty) then none
        else if containsChar ':' (cutBefore '/' rest) then
          some "first path segment in URL cannot contain colon"
        else unescapeErr EscMode.plain rest

/-- Model of Go `net/url.Parse`: cut the fragment at the first `#`, run the
inner parser (errors wrapped as `parse "u": err`, the text of `*url.Error`,
quoting the pre-fragment part), then unescape-check the fragment (errors
wrapped quoting the full raw URL, as Go does). -/
def urlParseErr (rawURL : String) : Option String :=
  let chars := rawURL.toList
  let u := String.mk (cutBefore '#' chars)
  match parseInnerErr u with
  | some e => some ("parse " ++ goQuote u ++ ": " ++ e)
  | none =>
    match unescapeErr EscMode.plain (afterFirst '#' chars) with
    | some e => some ("parse " ++ goQuote rawURL ++ ": " ++ e)
    | none => none

/-- From src/redirects.go `validateURL`: reject the empty string with
`empty URL`, otherwise report exactly the `url.Parse` error, if any. -/
def validateURL (redirecturl : String) : Option String :=
  if redirecturl == "" then some "empty URL"
  else urlParseErr redirecturl

/-- Valid MIME header token characters (Go `validHeaderFieldByte`). -/
def isTokenChar (c : Char) : Bool :=
  c.isAlphanum ||
    [33, 35, 36, 37, 38, 39, 42, 43, 45, 46, 94, 95, 96, 124, 126].contains c.toNat

/-- Canonical capitalization: uppercase at the start and after each `-`,
lowercase elsewhere. -/
def canonChars (upper : Bool) : List Char → List Char
  | [] => []
  | c :: t => (if upper then c.toUpper else c.toLower) :: canonChars (c == '-') t

/-- Model of Go `textproto.CanonicalMIMEHeaderKey`: keys containing an invalid
token character are returned unchanged, all others are canonically
capitalized. -/
def canonicalMIMEHeaderKey (s : String) : String :=
  if s.toList.all isTokenChar then String.mk (canonChars true s.toList) else s

/-- Model of Go `http.Header.Get` over the raw header lines of the response:
the header map is keyed by canonical names (the response reader canonicalizes
incoming names), `Get` canonicalizes its argument and returns the first value
for that key, or `""` when absent. -/
def headerGet (hs : List (String × String)) (key : String) : String :=
  match hs.find? (fun p => canonicalMIMEHeaderKey p.1 == canonicalMIMEHeaderKey key) with
  | some p => p.2
  | none => ""

/-- Uppercase hexadecimal digit. -/
def hexDigit (n : Nat) : Char :=
  if n < 10 then Char.ofNat (48 + n) else Char.ofNat (55 + n)

/-- Go `fmt.Sprintf("%04X", v)` for a uint16 value. -/
def hex4 (v : Nat) : String :=
  String.mk [hexDigit (v / 4096 % 16), hexDigit (v / 256 % 16),
    hexDigit (v / 16 % 16), hexDigit (v % 16)]

/-- Model of Go `crypto/tls.VersionName`. -/
def VersionName (v : Nat) : String :=
  if v == 768 then "SSLv3"
  else if v == 769 then "TLS 1.0"
  else if v == 770 then "TLS 1.1"
  else if v == 771 then "TLS 1.2"
  else if v == 772 then "TLS 1.3"
  else "0x" ++ hex4 v

/-- The parts of a Go `http.Response` this code reads: `StatusCode`, `Proto`,
`Request.URL.String()` (the URL the transport associated with the response),
the raw response header lines, and the TLS connection state (`none` when the
connection was not TLS; `some v` carries the negotiated version number). -/
structure Response where
  StatusCode : Int
  Proto : String
  RequestURL : String
  Header : List (String × String)
  TLS : Option Nat
deriving DecidableEq

/-- The network oracle standing for `client.Do`: request index and requested
URL to transport error text or response. -/
def Net : Type := Nat → String → Except String Response

/-- The `Redirects` struct of src/redirects.go (one hop record).  `Number` is
the Go loop counter, a non-negative `int`. -/
structure Redirect where
  Number : Nat
  StatusCode : Int
  URL : String
  Protocol : String
  TLSVersion : String
deriving DecidableEq

/-- The `Data` struct of src/redirects.go (the trace result). -/
structure Data where
  URL : String
  Redirects : List Redirect
  Error : Bool
  ErrorMessage : String
deriving DecidableEq

/-- Lines 69-72 of src/redirects.go, applied to the current URL at the top of
every iteration: prepend `http://` unless the string already CONTAINS
`http://` or `https://` case-insensitively. -/
def normalizeCurrentURL (u : String) : String :=
  if !(caseInsenstiveContains u "http://") && !(caseInsenstiveContains u "https://")
  then "http://" ++ u else u

/-- Lines 142-144 of src/redirects.go, applied to each `Location` value:
prepend `http://` unless the string already starts with `http://` or
`https://`, case-sensitively. -/
def normalizeLocationURL (u : String) : String :=
  if !(strStartsWith u "http://") && !(strStartsWith u "https://")
  then "http://" ++ u else u

/-- Lines 108-112 and 115-119 of src/redirects.go: the hop record built for
one response. -/
def mkHop (i : Nat) (resp : Response) (tlsv : String) : Redirect :=
  { Number := i, StatusCode := resp.StatusCode, URL := resp.RequestURL,
    Protocol := resp.Proto, TLSVersion := tlsv }

/-- Lines 115-119 of src/redirects.go: when the current URL contains
`https://` (case-insensitively) read `resp.TLS.Version`; `resp.TLS` being
`nil` there is a panic, modelled as `none`. -/
def hopTLSVersion (redirecturl : String) (resp : Response) : Option String :=
  if caseInsenstiveContains redirecturl "https://" then resp.TLS.map VersionName
  else some "N/A"

/-- The redirect loop of src/redirects.go lines 59-146, one constructor case
per remaining iteration (`fuel` = `maxRedirects - i`).  `http.NewRequest`
re-parses the current URL, so its error branch is the `url.Parse` error model;
a `none` result is the unhandled `resp.TLS` nil-dereference panic. -/
def getLoop (net : Net) : Nat → Nat → String → Data → Option Data
  | 0, _, _, r => some r
  | fuel + 1, i, redirecturl, r =>
    let redirecturl := normalizeCurrentURL redirecturl
    match urlParseErr redirecturl with
    | some e => some { r with Error := true, ErrorMessage := e }
    | none =>
      match net i redirecturl with
      | .error e => some { r with Error := true, ErrorMessage := e }
      | .ok resp =>
        match hopTLSVersion redirecturl resp with
        | none => none
        | some tlsv =>
          let r := { r with Redirects := r.Redirects ++ [mkHop i resp tlsv] }
          if resp.StatusCode = 200 ∨ resp.StatusCode > 303 then some r
          else
            if (headerGet resp.Header "Location").length > 0 then
              getLoop net fuel (i + 1)
                (normalizeLocationURL (headerGet resp.Header "Location")) r
            else if (headerGet resp.Header "location").length > 0 then
              getLoop net fuel (i + 1)
                (normalizeLocationURL (headerGet resp.Header "location")) r
            else if (headerGet resp.Header "LOCATION").length > 0 then
              getLoop net fuel (i + 1)
                (normalizeLocationURL (headerGet resp.Header "LOCATION")) r
            else some { r with Error := true, ErrorMessage := "Location header is empty" }

/-- `const maxRedirects = 20` of src/redirects.go. -/
def maxRedirects : Nat := 20

/-- The `Get` function of src/redirects.go.  `nameserver` is accepted and,
as in the source, never read.  The network oracle is the explicit stand-in
for `client.Do`. -/
def Get (redirecturl : String) (nameserver : String) (net : Net) : Option Data :=
  let r : Data := { URL := redirecturl, Redirects := [], Error := false, ErrorMessage := "" }
  match validateURL redirecturl with
  | some e => some { r with Error := true, ErrorMessage := e }
  | none => getLoop net maxRedirects 0 redirecturl r

end Redirects

namespace Redirects

/-- The three `Location` spellings canonicalize to the same header key, so the
lowercase lookup equals the canonical one. -/
theorem headerGet_location_lower (hs : List (String × String)) :
    headerGet hs "location" = headerGet hs "Location" := by
  have h : canonicalMIMEHeaderKey "location" = canonicalMIMEHeaderKey "Location" := by decide
  simp [headerGet, h]

/-- The all-caps lookup equals the canonical one. -/
theorem headerGet_location_caps (hs : List (String × String)) :
    headerGet hs "LOCATION" = headerGet hs "Location" := by
  have h : canonicalMIMEHeaderKey "LOCATION" = canonicalMIMEHeaderKey "Location" := by decide
  simp [headerGet, h]

/-- One successful iteration of the loop, unfolded: after the hop is recorded,
the loop either stops (terminal status), follows the `Location` value, or
fails with `Location header is empty`. -/
theorem getLoop_step_ok (net : Net) (fuel i : Nat) (url : String) (r : Data)
    (resp : Response) (tlsv : String)
    (hreq : urlParseErr (normalizeCurrentURL url) = none)
    (hnet : net i (normalizeCurrentURL url) = .ok resp)
    (htls : hopTLSVersion (normalizeCurrentURL url) resp = some tlsv) :
    getLoop net (fuel + 1) i url r =
      if resp.StatusCode = 200 ∨ resp.StatusCode > 303 then
        some { r with Redirects := (r.Redirects ++ [mkHop i resp tlsv]) }
      else if (headerGet resp.Header "Location").length > 0 then
        getLoop net fuel (i + 1) (normalizeLocationURL (headerGet resp.Header "Location"))
          { r with Redirects := (r.Redirects ++ [mkHop i resp tlsv]) }
      else
        some
          { r with
              Redirects := (r.Redirects ++ [mkHop i resp tlsv]),
              Error := true,
              ErrorMessage := "Location header is empty" } := by
  simp only [getLoop, hreq, hnet, htls]
  by_cases h : resp.StatusCode = 200 ∨ resp.StatusCode > 303
  · simp [h]
  · simp only [h, if_false]
    rw [headerGet_location_lower, headerGet_location_caps]
    by_cases hl : (headerGet resp.Header "Location").length > 0
    · simp [hl]
    · simp [hl]

/-- Each loop iteration appends at most one hop, so a completed loop holds at
most `fuel` more hops than its accumulator. -/
theorem getLoop_length_le (net : Net) :
    ∀ (fuel i : Nat) (url : String) (r : Data) (d : Data),
      getLoop net fuel i url r = some d →
      d.Redirects.length ≤ r.Redirects.length + fuel := by
  intro fuel
  induction fuel with
  | zero =>
    intro i url r d h
    simp only [getLoop, Option.some.injEq] at h
    simp [← h]
  | succ fuel ih =>
    intro i url r d h
    simp only [getLoop] at h
    split at h
    · cases h; simp
    · split at h
      · cases h; simp
      · split at h
        · exact absurd h (by simp)
        · split at h
          · cases h; simp
          · split at h
            · have := ih _ _ _ _ h
              simp at this ⊢
              omega
            · split at h
              · have := ih _ _ _ _ h
                simp at this ⊢
                omega
              · split at h
                · have := ih _ _ _ _ h
                  simp at this ⊢
                  omega
                · cases h; simp

/-- The loop consults the oracle only at request indices `i, …, i + fuel - 1`:
two oracles that agree there produce identical traces. -/
theorem getLoop_congr (net net' : Net) :
    ∀ (fuel i : Nat) (url : String) (r : Data),
      (∀ j u, i ≤ j → j < i + fuel → net j u = net' j u) →
      getLoop net fuel i url r = getLoop net' fuel i url r := by
  intro fuel
  induction fuel with
  | zero => intro i url r _; rfl
  | succ fuel ih =>
    intro i url r hagree
    have hnet : net' i (normalizeCurrentURL url) = net i (normalizeCurrentURL url) :=
      (hagree i _ (Nat.le_refl i) (by omega)).symm
    have ihc : ∀ url' r', getLoop net fuel (i + 1) url' r' = getLoop net' fuel (i + 1) url' r' := by
      intro url' r'
      exact ih (i + 1) url' r' (fun j u hj1 hj2 => hagree j u (by omega) (by omega))
    cases hp : urlParseErr (normalizeCurrentURL url) with
    | some e => simp [getLoop, hp]
    | none =>
      cases hn : net i (normalizeCurrentURL url) with
      | error e => simp [getLoop, hp, hn, hnet]
      | ok resp =>
        have hn' : net' i (normalizeCurrentURL url) = .ok resp := by rw [hnet, hn]
        cases htl : hopTLSVersion (normalizeCurrentURL url) resp with
        | none => simp [getLoop, hp, hn, hn', htl]
        | some tlsv =>
          rw [getLoop_step_ok net fuel i url r resp tlsv hp hn htl,
            getLoop_step_ok net' fuel i url r resp tlsv hp hn' htl]
          by_cases h : resp.StatusCode = 200 ∨ resp.StatusCode > 303
          · simp [h]
          · rw [if_neg h, if_neg h]
            by_cases hl : (headerGet resp.Header "Location").length > 0
            · rw [if_pos hl, if_pos hl]
              exact ihc _ _
            · rw [if_neg hl, if_neg hl]

end Redirects

namespace Redirects

/-- A server that answers every request with a plain-HTTP 200 response
(no TLS connection state), echoing the requested URL. -/
def plainNet200 : Net := fun _ u =>
  .ok { StatusCode := 200, Proto := "HTTP/1.1", RequestURL := u, Header := [], TLS := none }

/-- C9: the `nameserver` argument of `Get` is never read, so traces of the
same URL against the same server behavior agree for any two nameservers. -/
theorem nameserver_unused (url n1 n2 : String) (net : Net) :
    Get url n1 net = Get url n2 net := rfl

/-- C7: totality fails.  On the branch that computes the TLS version, a
current URL that merely contains `https://` while the response was served
without TLS makes the Go code dereference the nil `resp.TLS`, a panic that
escapes `Get` (modelled as the trace evaluating to `none`). -/
theorem tls_nil_dereference :
    Get "http://a.example/https://" "ns" plainNet200 = none := by decide

/-- C6: a transport-level failure at iteration `i` aborts the trace at once:
`Error` is set, the message is the oracle error text, no hop is appended for
iteration `i`, and the accumulated hops of earlier iterations are returned
unchanged. -/
theorem transport_error_aborts (net : Net) (fuel i : Nat) (url : String) (r : Data)
    (e : String)
    (hreq : urlParseErr (normalizeCurrentURL url) = none)
    (hnet : net i (normalizeCurrentURL url) = .error e) :
    getLoop net (fuel + 1) i url r =
      some { r with Error := true, ErrorMessage := e } := by
  simp [getLoop, hreq, hnet]

/-- A server refusing the second request of a trace. -/
def refuseSecondNet : Net := fun i u =>
  if i == 0 then
    .ok { StatusCode := 301, Proto := "HTTP/1.1", RequestURL := u,
          Header := [("Location", "http://b.example/")], TLS := none }
  else .error "dial tcp: connection refused"

/-- An accumulator holding one earlier hop, as after the first iteration of a
trace through `refuseSecondNet`. -/
def oneHopData : Data :=
  { URL := "http://a.example/",
    Redirects := [
      { Number := 0,
        StatusCode := 301,
        URL := "http://a.example/",
        Protocol := "HTTP/1.1",
        TLSVersion := "N/A" }],
    Error := false,
    ErrorMessage := "" }

/-- Witness for C6: the refused second request aborts, keeping hop 0. -/
theorem transport_error_aborts_witness :
    getLoop refuseSecondNet 19 1 "http://b.example/" oneHopData =
      some { oneHopData with Error := true, ErrorMessage := "dial tcp: connection refused" } :=
  transport_error_aborts refuseSecondNet 18 1 "http://b.example/" oneHopData
    "dial tcp: connection refused" (by decide) rfl

end Redirects

namespace Redirects

/-- C1: once the hop for a response is recorded, the loop stops exactly when
the status code equals 200 or exceeds 303; every other status code (100, 201,
204, 300 included) is a redirect continuation that goes on to read the
`Location` header (following it when non-empty, failing with `Location header
is empty` otherwise). -/
theorem stop_after_hop_iff_200_or_gt_303 (net : Net) (fuel i : Nat) (url : String)
    (r : Data) (resp : Response) (tlsv : String)
    (hreq : urlParseErr (normalizeCurrentURL url) = none)
    (hnet : net i (normalizeCurrentURL url) = .ok resp)
    (htls : hopTLSVersion (normalizeCurrentURL url) resp = some tlsv) :
    ((resp.StatusCode = 200 ∨ resp.StatusCode > 303) →
        getLoop net (fuel + 1) i url r =
          some { r with Redirects := (r.Redirects ++ [mkHop i resp tlsv]) }) ∧
    (¬(resp.StatusCode = 200 ∨ resp.StatusCode > 303) →
        getLoop net (fuel + 1) i url r =
          if (headerGet resp.Header "Location").length > 0 then
            getLoop net fuel (i + 1) (normalizeLocationURL (headerGet resp.Header "Location"))
              { r with Redirects := (r.Redirects ++ [mkHop i resp tlsv]) }
          else
            some
              { r with
                  Redirects := (r.Redirects ++ [mkHop i resp tlsv]),
                  Error := true,
                  ErrorMessage := "Location header is empty" }) := by
  rw [getLoop_step_ok net fuel i url r resp tlsv hreq hnet htls]
  constructor
  · intro h
    rw [if_pos h]
  · intro h
    rw [if_neg h]

/-- A server always answering 204 No Content with no headers. -/
def always204Net : Net := fun _ u =>
  .ok { StatusCode := 204, Proto := "HTTP/1.1", RequestURL := u, Header := [], TLS := none }

/-- The empty accumulator of a fresh trace of `http://a.example/`. -/
def freshData : Data :=
  { URL := "http://a.example/", Redirects := [], Error := false, ErrorMessage := "" }

/-- Witness for C1: a 204 response is not terminal; with no Location header
the loop fails with the empty-Location message right after recording the hop. -/
theorem stop_after_hop_iff_200_or_gt_303_witness :
    ¬((204 : Int) = 200 ∨ (204 : Int) > 303) ∧
    getLoop always204Net 20 0 "http://a.example/" freshData =
      some
        { freshData with
            Redirects := [mkHop 0
              { StatusCode := 204, Proto := "HTTP/1.1", RequestURL := "http://a.example/",
                Header := [], TLS := none } "N/A"],
            Error := true,
            ErrorMessage := "Location header is empty" } := by
  refine ⟨by decide, ?_⟩
  have h := (stop_after_hop_iff_200_or_gt_303 always204Net 19 0 "http://a.example/" freshData
    { StatusCode := 204, Proto := "HTTP/1.1", RequestURL := "http://a.example/",
      Header := [], TLS := none } "N/A" (by decide) rfl (by decide)).2 (by decide)
  rw [h]
  decide

/-- C4: a hop whose response has a continuation status and whose `Location`
header is absent or empty makes the trace return at once with `Error` set,
message exactly `Location header is empty`, and the hop recorded for that very
response still present at the end of the hop list. -/
theorem missing_location_fails (net : Net) (fuel i : Nat) (url : String) (r : Data)
    (resp : Response) (tlsv : String)
    (hreq : urlParseErr (normalizeCurrentURL url) = none)
    (hnet : net i (normalizeCurrentURL url) = .ok resp)
    (htls : hopTLSVersion (normalizeCurrentURL url) resp = some tlsv)
    (hcont : ¬(resp.StatusCode = 200 ∨ resp.StatusCode > 303))
    (hloc : headerGet resp.Header "Location" = "") :
    getLoop net (fuel + 1) i url r =
      some
        { r with
            Redirects := (r.Redirects ++ [mkHop i resp tlsv]),
            Error := true,
            ErrorMessage := "Location header is empty" } := by
  rw [getLoop_step_ok net fuel i url r resp tlsv hreq hnet htls, if_neg hcont,
    if_neg (by simp [hloc])]

/-- A server always answering 302 without any `Location` header. -/
def bareRedirectNet : Net := fun _ u =>
  .ok { StatusCode := 302, Proto := "HTTP/1.1", RequestURL := u, Header := [], TLS := none }

/-- Witness for C4: a 302 with no Location header fails with the exact message
and the hop for that response is kept. -/
theorem missing_location_fails_witness :
    headerGet ([] : List (String × String)) "Location" = "" ∧
    getLoop bareRedirectNet 20 0 "http://a.example/" freshData =
      some
        { freshData with
            Redirects := [mkHop 0
              { StatusCode := 302, Proto := "HTTP/1.1", RequestURL := "http://a.example/",
                Header := [], TLS := none } "N/A"],
            Error := true,
            ErrorMessage := "Location header is empty" } := by
  refine ⟨rfl, ?_⟩
  have h := missing_location_fails bareRedirectNet 19 0 "http://a.example/" freshData
    { StatusCode := 302, Proto := "HTTP/1.1", RequestURL := "http://a.example/",
      Header := [], TLS := none } "N/A" (by decide) rfl (by decide) (by decide) rfl
  rw [h]
  decide

end Redirects

namespace Redirects

/-- A server that always answers 302 with a `Location` pointing back to the
same URL `http://loop.example/`. -/
def selfLoopNet : Net := fun _ _ =>
  .ok { StatusCode := 302, Proto := "HTTP/1.1", RequestURL := "http://loop.example/",
        Header := [("Location", "http://loop.example/")], TLS := none }

/-- The trace produced by 20 self-redirecting hops: twenty 302 hop records and
no error. -/
def hopLimitResult : Data :=
  { URL := "http://loop.example/",
    Redirects := (List.range 20).map (fun k =>
      { Number := k,
        StatusCode := 302,
        URL := "http://loop.example/",
        Protocol := "HTTP/1.1",
        TLSVersion := "N/A" }),
    Error := false,
    ErrorMessage := "" }

/-- C2: every trace records at most 20 hops, the trace outcome never depends
on oracle answers beyond the first 20 request indices (no 21st request), and
the self-redirecting 302 server yields exactly 20 hops with `Error = false` —
hop-limit exhaustion is reported as success. -/
theorem hop_cap_twenty :
    (∀ (url ns : String) (net : Net) (d : Data),
        Get url ns net = some d → d.Redirects.length ≤ 20) ∧
    (∀ (url ns : String) (net net' : Net),
        (∀ j, j < 20 → ∀ u, net j u = net' j u) →
        Get url ns net = Get url ns net') ∧
    (∀ ns : String,
        Get "http://loop.example/" ns selfLoopNet = some hopLimitResult ∧
        hopLimitResult.Redirects.length = 20 ∧ hopLimitResult.Error = false) := by
  refine ⟨?_, ?_, ?_⟩
  · intro url ns net d h
    simp only [Get] at h
    split at h
    · cases h; simp
    · have := getLoop_length_le net maxRedirects 0 url _ d h
      simpa using this
  · intro url ns net net' hagree
    simp only [Get]
    split
    · rfl
    · exact getLoop_congr net net' maxRedirects 0 url _
        (fun j u hj1 hj2 => hagree j (by simpa [maxRedirects] using hj2) u)
  · intro ns
    exact ⟨rfl, by decide, by decide⟩

/-- Witness for C2: the hop bound and the oracle-agreement fact applied to the
concrete 20-hop self-loop trace. -/
theorem hop_cap_twenty_witness :
    hopLimitResult.Redirects.length ≤ 20 ∧
    Get "http://loop.example/" "ns" selfLoopNet = Get "http://loop.example/" "ns" selfLoopNet :=
  ⟨hop_cap_twenty.1 "http://loop.example/" "ns" selfLoopNet hopLimitResult rfl,
    hop_cap_twenty.2.1 "http://loop.example/" "ns" selfLoopNet selfLoopNet
      (fun _ _ _ => rfl)⟩

/-- A server answering the first request with 302 and an all-caps `LOCATION`
header pointing to `http://b.example/`, and every later request with 200;
responses echo the requested URL. -/
def capsLocationNet : Net := fun i u =>
  if i == 0 then
    .ok { StatusCode := 302, Proto := "HTTP/1.1", RequestURL := u,
          Header := [("LOCATION", "http://b.example/")], TLS := none }
  else
    .ok { StatusCode := 200, Proto := "HTTP/1.1", RequestURL := u, Header := [], TLS := none }

/-- The same server with the header spelled `Location`. -/
def stdLocationNet : Net := fun i u =>
  if i == 0 then
    .ok { StatusCode := 302, Proto := "HTTP/1.1", RequestURL := u,
          Header := [("Location", "http://b.example/")], TLS := none }
  else
    .ok { StatusCode := 200, Proto := "HTTP/1.1", RequestURL := u, Header := [], TLS := none }

/-- The two-hop trace both servers produce. -/
def twoHopResult : Data :=
  { URL := "http://a.example/",
    Redirects := [
      { Number := 0,
        StatusCode := 302,
        URL := "http://a.example/",
        Protocol := "HTTP/1.1",
        TLSVersion := "N/A" },
      { Number := 1,
        StatusCode := 200,
        URL := "http://b.example/",
        Protocol := "HTTP/1.1",
        TLSVersion := "N/A" }],
    Error := false,
    ErrorMessage := "" }

/-- C8: the `Location` header is read through Go's canonicalizing
`Header.Get`, so the spellings `Location`, `location` and `LOCATION` are all
looked up identically; concretely, a server sending `LOCATION` in all caps is
followed to `http://b.example/` exactly like one sending `Location`. -/
theorem location_header_case_insensitive :
    (∀ hs : List (String × String),
        headerGet hs "Location" = headerGet hs "location" ∧
        headerGet hs "Location" = headerGet hs "LOCATION") ∧
    Get "http://a.example/" "ns" capsLocationNet = Get "http://a.example/" "ns" stdLocationNet ∧
    Get "http://a.example/" "ns" capsLocationNet = some twoHopResult ∧
    twoHopResult.Redirects.map (fun h => h.URL) = ["http://a.example/", "http://b.example/"] := by
  refine ⟨?_, by decide, by decide, by decide⟩
  intro hs
  exact ⟨(headerGet_location_lower hs).symm, (headerGet_location_caps hs).symm⟩

end Redirects

namespace Redirects

/-- Prepending a string leaves it as a prefix of the result. -/
theorem strStartsWith_append (pre u : String) : strStartsWith (pre ++ u) pre = true := by
  simp [strStartsWith, List.isPrefixOf_iff_prefix]

/-- C3 counterexample: the current-URL normalization is a containment check,
so an input that contains `https://` without starting with any scheme prefix
is returned unchanged and starts with neither `http://` nor `https://`; and
the Location normalization is case-sensitive, so an uppercase `HTTP://` value
is not returned unchanged but gets `http://` prepended. -/
theorem normalizer_prefix_counterexample :
    normalizeCurrentURL "a.example/?u=https://b" = "a.example/?u=https://b" ∧
    strStartsWith "a.example/?u=https://b" "http://" = false ∧
    strStartsWith "a.example/?u=https://b" "https://" = false ∧
    normalizeLocationURL "HTTP://b.example" = "http://HTTP://b.example" := by
  refine ⟨by decide, by decide, by decide, by decide⟩

/-- C3 amended: the current-URL check is a case-insensitive CONTAINMENT
check — inputs containing `http://` or `https://` anywhere (any case) pass
unchanged even when they do not start with either, and only inputs containing
neither get `http://` prepended (then starting with `http://`); the Location
check is a CASE-SENSITIVE prefix check — values starting with lowercase
`http://` or `https://` pass unchanged, all others (uppercase prefixes
included) get `http://` prepended, so the Location normalization alone always
yields a string starting with `http://` or `https://`. -/
theorem normalizer_amended (u : String) :
    ((caseInsenstiveContains u "http://" = false ∧
          caseInsenstiveContains u "https://" = false) →
        normalizeCurrentURL u = "http://" ++ u ∧
        strStartsWith (normalizeCurrentURL u) "http://" = true) ∧
    ((caseInsenstiveContains u "http://" = true ∨
          caseInsenstiveContains u "https://" = true) →
        normalizeCurrentURL u = u) ∧
    ((strStartsWith u "http://" = false ∧ strStartsWith u "https://" = false) →
        normalizeLocationURL u = "http://" ++ u) ∧
    ((strStartsWith u "http://" = true ∨ strStartsWith u "https://" = true) →
        normalizeLocationURL u = u) ∧
    (strStartsWith (normalizeLocationURL u) "http://" = true ∨
        strStartsWith (normalizeLocationURL u) "https://" = true) := by
  refine ⟨?_, ?_, ?_, ?_, ?_⟩
  · intro h
    have hu : normalizeCurrentURL u = "http://" ++ u := by
      simp [normalizeCurrentURL, h.1, h.2]
    exact ⟨hu, by rw [hu]; exact strStartsWith_append "http://" u⟩
  · intro h
    rcases h with h | h <;> simp [normalizeCurrentURL, h]
  · intro h
    simp [normalizeLocationURL, h.1, h.2]
  · intro h
    rcases h with h | h <;> simp [normalizeLocationURL, h]
  · by_cases h1 : strStartsWith u "http://" = true
    · left
      simp [normalizeLocationURL, h1]
    · by_cases h2 : strStartsWith u "https://" = true
      · right
        simp [normalizeLocationURL, h2]
      · left
        have hu : normalizeLocationURL u = "http://" ++ u := by
          simp only [Bool.not_eq_true] at h1 h2
          simp [normalizeLocationURL, h1, h2]
        rw [hu]
        exact strStartsWith_append "http://" u

/-- Witness for C3 amended: `example.com/path` contains neither marker and is
normalized to `http://example.com/path`. -/
theorem normalizer_amended_witness :
    (caseInsenstiveContains "example.com/path" "http://" = false ∧
        caseInsenstiveContains "example.com/path" "https://" = false) ∧
    (normalizeCurrentURL "example.com/path" = "http://example.com/path" ∧
        strStartsWith (normalizeCurrentURL "example.com/path") "http://" = true) :=
  ⟨⟨by decide, by decide⟩,
    by
      have h := (normalizer_amended "example.com/path").1 ⟨by decide, by decide⟩
      exact ⟨by rw [h.1]; rfl, h.2⟩⟩

end Redirects

namespace Redirects

/-- C10 counterexample: `not a url` (plain text with spaces) passes
validation, yet even against a server that would answer every request with
200, the trace returns a failure with zero hops — the request constructor
re-parses `http://not a url` and rejects the space in the host before any
network I/O, so no network request is attempted for this input. -/
theorem lenient_validation_counterexample :
    validateURL "not a url" = none ∧
    Get "not a url" "ns" plainNet200 =
      some
        { URL := "not a url",
          Redirects := [],
          Error := true,
          ErrorMessage := "parse \"http://not a url\": invalid character \" \" in host name" } := by
  refine ⟨by decide, by decide⟩

/-- C10 amended: validation rejects only the empty string and strings the
URL-parse model refuses (control characters and similar), and non-empty
non-URL text such as `not a url` passes it; but such an input is not always
followed by a network request — when prepending `http://` leaves characters
that are invalid in a host (a space, here), request construction fails first,
returning `Error = true` with the parse error, zero hops, identically for
every network oracle; non-URL inputs without host-invalid characters (such as
`not-a-url`) do proceed to a network request. -/
theorem lenient_validation_amended :
    (∀ s, validateURL s ≠ none → s = "" ∨ urlParseErr s ≠ none) ∧
    validateURL "bad\x00url" =
      some "parse \"bad\\x00url\": net/url: invalid control character in URL" ∧
    validateURL "not a url" = none ∧
    (∀ (net : Net) (ns : String),
        Get "not a url" ns net =
          some
            { URL := "not a url",
              Redirects := [],
              Error := true,
              ErrorMessage := "parse \"http://not a url\": invalid character \" \" in host name" }) ∧
    (Get "not-a-url" "ns" plainNet200 =
        some
          { URL := "not-a-url",
            Redirects := [
              { Number := 0,
                StatusCode := 200,
                URL := "http://not-a-url",
                Protocol := "HTTP/1.1",
                TLSVersion := "N/A" }],
            Error := false,
            ErrorMessage := "" }) := by
  refine ⟨?_, by decide, by decide, ?_, by decide⟩
  · intro s h
    by_cases hs : s = ""
    · exact Or.inl hs
    · right
      intro hp
      apply h
      have hb : (s == "") = false := by simp [hs]
      simp only [validateURL, hb, Bool.false_eq_true, if_false, hp]
  · intro net ns
    rfl

/-- Witness for C10 amended, applied at the empty string. -/
theorem lenient_validation_amended_witness :
    validateURL "" ≠ none ∧ ("" = "" ∨ urlParseErr "" ≠ none) :=
  ⟨by decide, lenient_validation_amended.1 "" (by decide)⟩

end Redirects
